import Mathlib

/-!
Verification development for the easynews-plus-plus result aggregation and
ranking pipeline.  The definitions below are shallow embeddings of:

* `EasynewsAPI` (`getCacheKey`, `search`, `searchAll`) from `packages/api/src/api.ts`;
* the multi-query orchestrator loop, the result filter loop, the title
  expansion step and the post-filter steps of `defineStreamHandler` from
  `packages/addon/src/addon.ts`.

Network I/O is modelled by an explicit `upstream` function, the response
cache by a function from keys to entries, and time by a `Nat` parameter.
JavaScript `||`-defaulting (which treats `0` and `""` as absent) is modelled
separately from destructuring defaults (which only replace `undefined`).
-/

deriving instance DecidableEq for Except

namespace Easynews

/-- Character-level helper: does `pat` occur at the start of `l`? -/
def leadsWith {α : Type} [DecidableEq α] : List α → List α → Bool
  | [], _ => true
  | _ :: _, [] => false
  | a :: pat, b :: l => a = b && leadsWith pat l

/-- Character-level helper: does `pat` occur contiguously anywhere in `l`? -/
def hasSegment {α : Type} [DecidableEq α] (pat : List α) : List α → Bool
  | [] => pat.isEmpty
  | b :: l => leadsWith pat (b :: l) || hasSegment pat l

/-- Split a character list at every occurrence of the separator character
(JavaScript `String.prototype.split` with a one-character separator, which is
the only form the source uses). -/
def splitOnChar (sep : Char) : List Char → List (List Char)
  | [] => [[]]
  | c :: rest =>
    let r := splitOnChar sep rest
    if c = sep then [] :: r
    else
      match r with
      | [] => [[c]]
      | h :: t => (c :: h) :: t

def jsSplit (s : String) (sep : Char) : List String :=
  (splitOnChar sep s.data).map String.mk

/-- JavaScript `String.prototype.trim`: strip whitespace from both ends. -/
def jsTrim (s : String) : String :=
  String.mk (((s.data.dropWhile Char.isWhitespace).reverse.dropWhile Char.isWhitespace).reverse)

/-- Insertion-ordered deduplication: the element order produced by iterating a
JavaScript `Set` that was filled by repeated `add` calls (first occurrence of
each element is kept, in order). -/
def insertionDedup {α : Type} [DecidableEq α] (l : List α) : List α :=
  l.foldl (fun acc a => if a ∈ acc then acc else acc ++ [a]) []

theorem insertionDedup_fold_nodup {α : Type} [DecidableEq α] :
    ∀ (l acc : List α), acc.Nodup →
      (l.foldl (fun acc a => if a ∈ acc then acc else acc ++ [a]) acc).Nodup := by
  intro l
  induction l with
  | nil => intro acc h; simpa using h
  | cons a t ih =>
    intro acc h
    by_cases hm : a ∈ acc
    · simpa [List.foldl, hm] using ih acc h
    · have h2 : (acc ++ [a]).Nodup := by
        simp [List.nodup_append, h, hm]
      simpa [List.foldl, hm] using ih (acc ++ [a]) h2

theorem insertionDedup_fold_mem {α : Type} [DecidableEq α] :
    ∀ (l acc : List α) (x : α),
      (x ∈ l.foldl (fun acc a => if a ∈ acc then acc else acc ++ [a]) acc ↔
        x ∈ acc ∨ x ∈ l) := by
  intro l
  induction l with
  | nil => intro acc x; simp
  | cons a t ih =>
    intro acc x
    by_cases hm : a ∈ acc
    · constructor
      · intro hx
        rcases (ih acc x).mp (by simpa [List.foldl, hm] using hx) with h | h
        · exact Or.inl h
        · exact Or.inr (List.mem_cons_of_mem _ h)
      · intro hx
        have : x ∈ acc ∨ x ∈ t := by
          rcases hx with h | h
          · exact Or.inl h
          · rcases List.mem_cons.mp h with h | h
            · exact Or.inl (h ▸ hm)
            · exact Or.inr h
        simpa [List.foldl, hm] using (ih acc x).mpr this
    · constructor
      · intro hx
        rcases (ih (acc ++ [a]) x).mp (by simpa [List.foldl, hm] using hx) with h | h
        · rcases List.mem_append.mp h with h | h
          · exact Or.inl h
          · exact Or.inr (by simpa using Or.inl (List.mem_singleton.mp h))
        · exact Or.inr (List.mem_cons_of_mem _ h)
      · intro hx
        have : x ∈ acc ++ [a] ∨ x ∈ t := by
          rcases hx with h | h
          · exact Or.inl (List.mem_append.mpr (Or.inl h))
          · rcases List.mem_cons.mp h with h | h
            · exact Or.inl (List.mem_append.mpr (Or.inr (by simp [h])))
            · exact Or.inr h
        simpa [List.foldl, hm] using (ih (acc ++ [a]) x).mpr this

theorem insertionDedup_nodup {α : Type} [DecidableEq α] (l : List α) :
    (insertionDedup l).Nodup :=
  insertionDedup_fold_nodup l [] List.nodup_nil

theorem mem_insertionDedup {α : Type} [DecidableEq α] (l : List α) (x : α) :
    x ∈ insertionDedup l ↔ x ∈ l := by
  unfold insertionDedup
  simpa using insertionDedup_fold_mem l [] x

/-- One upstream search hit.  Field `'0'` of the JSON record is the content
hash (the stable dedup key); the display title is the part relevant to the
filter stage (`getPostTitle`). -/
structure FileData where
  hash : String
  title : String
  deriving DecidableEq, Repr

/-- The JSON envelope returned by one page fetch
(`{data, results, returned, unfilteredResults, ...}`); the CDN routing fields
are irrelevant to the claims and omitted. -/
structure EasynewsSearchResponse where
  data : List FileData
  results : Nat
  returned : Nat
  unfilteredResults : Nat
  deriving DecidableEq, Repr

/-- `SearchOptions` from `packages/api/src/types.ts`: all parameters other
than `query` are optional (`none` = the caller omitted them). -/
structure SearchOptions where
  query : String
  pageNr : Option Nat := none
  maxResults : Option Nat := none
  sort1 : Option String := none
  sort1Direction : Option String := none
  sort2 : Option String := none
  sort2Direction : Option String := none
  sort3 : Option String := none
  sort3Direction : Option String := none
  deriving DecidableEq, Repr

/-- JavaScript `x || d` for an optional number: `undefined` and `0` are both
falsy, so both fall back to the default. -/
def jsOrNat (o : Option Nat) (d : Nat) : Nat :=
  match o with
  | none => d
  | some n => if n = 0 then d else n

/-- JavaScript `x || d` for an optional string: `undefined` and `""` are both
falsy, so both fall back to the default. -/
def jsOrStr (o : Option String) (d : String) : String :=
  match o with
  | none => d
  | some s => if s = "" then d else s

/-- The cache key built by `EasynewsAPI.getCacheKey`.  The source serializes a
fixed-key-order object literal with `JSON.stringify`; since the key order and
the value types are fixed, the serialization is injective in the field values
and the key is modelled as the record of those values. -/
structure CacheKey where
  query : String
  pageNr : Nat
  maxResults : Nat
  sort1 : String
  sort1Direction : String
  sort2 : String
  sort2Direction : String
  sort3 : String
  sort3Direction : String
  deriving DecidableEq, Repr

/-- `EasynewsAPI.getCacheKey` (api.ts lines 264-276).  Note that the
`maxResults` component is read from `process.env.MAX_RESULTS_PER_PAGE`
(default 250), not from the caller's options. -/
def getCacheKey (envMaxResultsPerPage : Nat) (options : SearchOptions) : CacheKey :=
  { query := options.query
    pageNr := jsOrNat options.pageNr 1
    maxResults := envMaxResultsPerPage
    sort1 := jsOrStr options.sort1 "dsize"
    sort1Direction := jsOrStr options.sort1Direction "-"
    sort2 := jsOrStr options.sort2 "relevance"
    sort2Direction := jsOrStr options.sort2Direction "-"
    sort3 := jsOrStr options.sort3 "dtime"
    sort3Direction := jsOrStr options.sort3Direction "-" }

/-- The variable query parameters of the upstream HTTP GET issued by
`EasynewsAPI.search` (the constant filter parameters `st`, `sb`, `fex`,
`fty[]`, `spamf`, `u`, `gx`, `sS`, `safeO` are fixed in the source and
omitted). -/
structure SearchRequest where
  gps : String
  pno : Nat
  pby : Nat
  s1 : String
  s1d : String
  s2 : String
  s2d : String
  s3 : String
  s3d : String
  deriving DecidableEq, Repr

/-- The effective request parameters after the destructuring defaults of
`EasynewsAPI.search` (which, unlike `||`, only replace absent arguments). -/
def toRequest (envMaxResultsPerPage : Nat) (o : SearchOptions) : SearchRequest :=
  { gps := o.query
    pno := o.pageNr.getD 1
    pby := o.maxResults.getD envMaxResultsPerPage
    s1 := o.sort1.getD "dsize"
    s1d := o.sort1Direction.getD "-"
    s2 := o.sort2.getD "relevance"
    s2d := o.sort2Direction.getD "-"
    s3 := o.sort3.getD "dtime"
    s3d := o.sort3Direction.getD "-" }

/-- The distinct failures `EasynewsAPI.search` can raise: the empty-query
validation error, the dedicated authentication error on HTTP 401, the generic
request failure on any other non-2xx status, and the 20-second timeout
(`AbortError`). -/
inductive SearchError where
  | validationError : SearchError
  | authFailed : SearchError
  | requestFailed : Nat → SearchError
  | timedOut : SearchError
  deriving DecidableEq, Repr

/-- What the upstream API does with one request: answer with an HTTP status
and a JSON body, or let the 20-second deadline abort the fetch. -/
inductive UpstreamReply where
  | reply : Nat → EasynewsSearchResponse → UpstreamReply
  | aborted : UpstreamReply
  deriving DecidableEq, Repr

/-- The network path of `EasynewsAPI.search` (api.ts lines 314-402, cache
aside): empty query is rejected, 401 becomes the authentication error, any
other non-2xx status becomes a request failure carrying the status, an abort
becomes the timeout error, and a 2xx reply returns the body. -/
def searchOutcome (envMaxResultsPerPage : Nat) (upstream : SearchRequest → UpstreamReply)
    (o : SearchOptions) : Except SearchError EasynewsSearchResponse :=
  if o.query = "" then .error .validationError
  else
    match upstream (toRequest envMaxResultsPerPage o) with
    | .aborted => .error .timedOut
    | .reply status body =>
      if status = 401 then .error .authFailed
      else if 200 ≤ status ∧ status ≤ 299 then .ok body
      else .error (.requestFailed status)

/-- Modelled from the spec: `isAuthError` is defined in
`packages/addon/src/utils.ts`, which is not among the provided sources.  The
spec requires credential rejections to be distinguishable from every other
failure so that the caller can render an authentication-specific response,
and the API client raises a dedicated authentication error exactly on
upstream HTTP 401, so the predicate recognizes exactly that error. -/
def isAuthError : SearchError → Bool
  | .authFailed => true
  | _ => false

/-- The response cache of one `EasynewsAPI` instance: key to cached response
and insertion timestamp. -/
def Cache : Type := CacheKey → Option (EasynewsSearchResponse × Nat)

def emptyCache : Cache := fun _ => none

/-- `EasynewsAPI.getFromCache`: a missing key is a miss; an entry older than
the TTL (strictly, `now - timestamp > cacheTTL`) is evicted and reported as a
miss; otherwise the entry is a hit.  Returns the possibly-evicted cache. -/
def getFromCache (cacheTTL now : Nat) (cache : Cache) (k : CacheKey) :
    Option EasynewsSearchResponse × Cache :=
  match cache k with
  | none => (none, cache)
  | some (d, ts) =>
    if now - ts > cacheTTL then (none, fun k2 => if k2 = k then none else cache k2)
    else (some d, cache)

/-- `EasynewsAPI.setCache`: store the full response under the key with the
current timestamp. -/
def setCache (cache : Cache) (k : CacheKey) (d : EasynewsSearchResponse) (now : Nat) : Cache :=
  fun k2 => if k2 = k then some (d, now) else cache k2

/-- `EasynewsAPI.search` with its cache: validation, key construction, cache
lookup, and on a miss exactly one network request whose successful body is
stored before being returned.  The third component counts network calls made
by this invocation (0 on a hit, 1 otherwise). -/
def search (envMaxResultsPerPage cacheTTL : Nat) (upstream : SearchRequest → UpstreamReply)
    (now : Nat) (cache : Cache) (o : SearchOptions) :
    Except SearchError EasynewsSearchResponse × Cache × Nat :=
  if o.query = "" then (.error .validationError, cache, 0)
  else
    let k := getCacheKey envMaxResultsPerPage o
    match getFromCache cacheTTL now cache k with
    | (some d, c2) => (.ok d, c2, 0)
    | (none, c2) =>
      match searchOutcome envMaxResultsPerPage upstream o with
      | .ok json => (.ok json, setCache c2 k json now, 1)
      | .error e => (.error e, c2, 1)

/-- The three aggregation limits of `EasynewsAPI.searchAll`, read from the
environment (defaults 500 / 10 / 250). -/
structure ApiEnv where
  TOTAL_MAX_RESULTS : Nat
  MAX_PAGES : Nat
  MAX_RESULTS_PER_PAGE : Nat
  deriving DecidableEq, Repr

/-- The `while (pageCount < MAX_PAGES)` loop of `EasynewsAPI.searchAll`
(api.ts lines 429-513).  `pageFetch pageNr maxResults` stands for
`this.search({...options, pageNr, maxResults})` for the fixed query of this
aggregation; `fuel` is `MAX_PAGES - pageCount`.  The second component records
every issued page request as `(pageNr, requested size, results accumulated so
far)`.  A fetch failure is resolved as in the `catch` block: accumulated
partial results are returned, and only an empty accumulation propagates the
error. -/
def searchAllLoop (env : ApiEnv)
    (pageFetch : Nat → Nat → Except SearchError EasynewsSearchResponse) :
    Nat → Nat → List FileData → EasynewsSearchResponse →
      Except SearchError EasynewsSearchResponse × List (Nat × Nat × Nat)
  | 0, _, data, res => (.ok { res with data := data }, [])
  | fuel + 1, pageNr, data, res =>
    if env.TOTAL_MAX_RESULTS ≤ data.length then
      (.ok { res with data := data }, [])
    else
      let optimalPageSize := min env.MAX_RESULTS_PER_PAGE (env.TOTAL_MAX_RESULTS - data.length)
      let issued := (pageNr, optimalPageSize, data.length)
      match pageFetch pageNr optimalPageSize with
      | .error e =>
        if 0 < data.length then (.ok { res with data := data }, [issued])
        else (.error e, [issued])
      | .ok pageResult =>
        let newData := pageResult.data
        if newData.length = 0 then
          (.ok { pageResult with data := data }, [issued])
        else if 0 < data.length ∧ newData.head?.map FileData.hash = data.head?.map FileData.hash then
          (.ok { pageResult with data := data }, [issued])
        else
          let data2 := data ++ newData
          if env.TOTAL_MAX_RESULTS ≤ data2.length then
            (.ok { pageResult with data := data2.take env.TOTAL_MAX_RESULTS }, [issued])
          else
            let rest := searchAllLoop env pageFetch fuel (pageNr + 1) data2 pageResult
            (rest.1, issued :: rest.2)

/-- `EasynewsAPI.searchAll`: drive `pageFetch` from page 1 with an empty
accumulator and the zeroed initial envelope. -/
def searchAll (env : ApiEnv)
    (pageFetch : Nat → Nat → Except SearchError EasynewsSearchResponse) :
    Except SearchError EasynewsSearchResponse × List (Nat × Nat × Nat) :=
  searchAllLoop env pageFetch env.MAX_PAGES 1 []
    { data := [], results := 0, returned := 0, unfilteredResults := 0 }

/-- Outcome of the stream handler's multi-query phase: either the dedicated
authentication-error response (`authErrorStream`), or the accumulated list of
per-query search responses. -/
inductive StreamHandlerResult where
  | authAbort : StreamHandlerResult
  | done : List (String × EasynewsSearchResponse) → StreamHandlerResult
  deriving DecidableEq, Repr

/-- `countTotalUniqueResults` from the stream handler (addon.ts lines
416-425): the cardinality of the set of content hashes over all accumulated
responses. -/
def countTotalUniqueResults (allSearchResults : List (String × EasynewsSearchResponse)) : Nat :=
  (insertionDedup (allSearchResults.flatMap (fun r => r.2.data.map FileData.hash))).length

/-- The per-title search loop of the stream handler (addon.ts lines 428-477):
empty titles are skipped, the loop stops once the unique-result budget is
met, each remaining title issues exactly one `api.search` call, responses
with results are appended, an authentication failure aborts the whole
operation, and every other failure just moves on to the next title.  The
second component is the trace of queries actually searched. -/
def collectLoop (totalMax : Nat)
    (searchFn : String → Except SearchError EasynewsSearchResponse)
    (buildQuery : String → String) :
    List String → List (String × EasynewsSearchResponse) →
      StreamHandlerResult × List String
  | [], acc => (.done acc, [])
  | t :: rest, acc =>
    if jsTrim t = "" then collectLoop totalMax searchFn buildQuery rest acc
    else if totalMax ≤ countTotalUniqueResults acc then (.done acc, [])
    else
      let q := buildQuery t
      match searchFn q with
      | .error e =>
        if isAuthError e then (.authAbort, [q])
        else
          let r := collectLoop totalMax searchFn buildQuery rest acc
          (r.1, q :: r.2)
      | .ok res =>
        if 0 < res.data.length then
          let r := collectLoop totalMax searchFn buildQuery rest (acc ++ [(q, res)])
          (r.1, q :: r.2)
        else
          let r := collectLoop totalMax searchFn buildQuery rest acc
          (r.1, q :: r.2)

/-- The inputs of the result filter loop: the global candidate cap, the
`isBadVideo` heuristic (external, `utils.ts`), and the combined title-match
verdict of the series/movie query-variant checks (built over `matchesTitle`,
also external). -/
structure StreamFilterConfig where
  totalMax : Nat
  isBadVideo : FileData → Bool
  matchesQueries : FileData → Bool

/-- State of the result filter loop: the global hash set shared across all
responses of the call, and the accepted records (in acceptance order). -/
structure FilterState where
  processedHashes : List String
  streams : List FileData
  deriving DecidableEq, Repr

/-- One iteration of the inner record loop of the stream handler (addon.ts
lines 569-659): stop at the global cap, reject bad videos, reject records
whose hash is already in the shared set, then record the hash and accept the
record only if it passes the title-match checks.  The hash is recorded
before the title-match checks run. -/
def processFile (cfg : StreamFilterConfig) (st : FilterState) (file : FileData) : FilterState :=
  if cfg.totalMax ≤ st.streams.length then st
  else if cfg.isBadVideo file then st
  else if file.hash ∈ st.processedHashes then st
  else
    let st2 := { st with processedHashes := st.processedHashes ++ [file.hash] }
    if cfg.matchesQueries file then { st2 with streams := st2.streams ++ [file] } else st2

/-- The two nested loops of the result filter (addon.ts lines 562-660):
responses in collection order, records in upstream order, one shared state. -/
def processSearchResults (cfg : StreamFilterConfig)
    (responses : List EasynewsSearchResponse) : FilterState :=
  responses.foldl (fun st res => res.data.foldl (processFile cfg) st)
    { processedHashes := [], streams := [] }

/-- The title-list construction of the stream handler (addon.ts lines
357-403).  `customTitles` is the custom-title map; `metaAlternatives` the
metadata-supplied alternate names; `additionalRaw` the output of the external
`getAlternativeTitles` lookup (utils.ts), before the in-handler filtering.
The final line mirrors
`[meta.name, ...new Set(allTitles.filter(t => t !== meta.name))]`. -/
def buildAllTitles (metaName : String) (customTitles : List (String × List String))
    (metaAlternatives : List String) (additionalRaw : List String) : List String :=
  let t1 := [metaName]
  let t2 := t1 ++ ((customTitles.lookup metaName).getD [])
  let t3 := t2 ++ metaAlternatives.filter (fun alt => alt ∉ t2)
  let t4 := t3 ++ additionalRaw.filter (fun alt => alt ∉ t3 ∧ alt ≠ metaName)
  metaName :: insertionDedup (t4.filter (fun t => t ≠ metaName))

/-- A stream descriptor as the post-filter steps see it: `name` carries the
quality marker on its second line, `description` carries the size line. -/
structure Stream where
  name : String
  description : String
  deriving DecidableEq, Repr

/-- JavaScript `s.includes(sub)`: the character sequence of `sub` occurs
contiguously in `s`. -/
def jsIncludes (s sub : String) : Bool :=
  hasSegment sub.data s.data

/-- `stream.name?.split('\n')[1] || ''`: the quality marker line. -/
def qualityOf (s : Stream) : String :=
  (jsSplit s.name '\n').getD 1 ""

def defaultQualitySet : List String := ["4k", "1080p", "720p", "480p"]

/-- `isCustomQualityFilter` (addon.ts lines 909-912): the configured filters
are custom unless they are exactly four entries all drawn from the default
set. -/
def isCustomQualityFilter (qualityFilters : List String) : Bool :=
  ¬ (qualityFilters.length = 4 ∧ qualityFilters.all (fun q => defaultQualitySet.contains q))

/-- The `qualityMap` table (addon.ts lines 918-923). -/
def qualityMap : String → List String
  | "4k" => ["4K", "UHD", "2160p"]
  | "1080p" => ["1080p"]
  | "720p" => ["720p"]
  | "480p" => ["480p", "SD"]
  | _ => []

def allowedQualityTerms (qualityFilters : List String) : List String :=
  qualityFilters.flatMap qualityMap

/-- The per-stream predicate of the quality filter:
`allowedQualityTerms.some(term => quality.includes(term))`. -/
def qualityPass (qualityFilters : List String) (s : Stream) : Bool :=
  (allowedQualityTerms qualityFilters).any (fun term => jsIncludes (qualityOf s) term)

/-- The quality allow-list step (addon.ts lines 907-956): applied only for a
custom filter set with at least one recognized term, and kept only if it
leaves at least one stream. -/
def qualityStep (qualityFilters : List String) (streams : List Stream) : List Stream :=
  if isCustomQualityFilter qualityFilters then
    if 0 < (allowedQualityTerms qualityFilters).length then
      if 0 < (streams.filter (qualityPass qualityFilters)).length then
        streams.filter (qualityPass qualityFilters)
      else streams
    else streams
  else streams

/-- The first maximal run of characters matched by the regex `[\d.]+`, or the
fallback `'0'` when there is no match (`match(/[\d.]+/)?.[0] || '0'`). -/
def matchNumOrZero (s : String) : String :=
  let isNumChar : Char → Bool := fun c => c.isDigit || c = '.'
  let chunk := ((s.data.dropWhile (fun c => ¬ isNumChar c)).takeWhile isNumChar)
  if chunk.isEmpty then "0" else String.mk chunk

def parseNatDigits (cs : List Char) : Nat :=
  cs.foldl (fun a c => 10 * a + (c.toNat - 48)) 0

/-- A non-negative decimal number as `parseFloat` produces it from a string
of digits and dots: the value is `num / den` with `den` a power of ten.
IEEE-754 rounding of JavaScript numbers is abstracted to exact decimal
arithmetic. -/
structure JsNumber where
  num : Nat
  den : Nat
  deriving DecidableEq, Repr

/-- Exact comparison `a ≤ b` of two decimals by cross-multiplication. -/
def jsLe (a b : JsNumber) : Bool :=
  decide (a.num * b.den ≤ b.num * a.den)

/-- JavaScript `parseFloat` restricted to strings of digits and dots (the
only strings `matchNumOrZero` produces): integer part, then an optional
fractional part up to the second dot; `none` models `NaN`. -/
def parseFloatDec (s : String) : Option JsNumber :=
  let intPart := s.data.takeWhile Char.isDigit
  match s.data.dropWhile Char.isDigit with
  | '.' :: rest2 =>
    let fracPart := rest2.takeWhile Char.isDigit
    if intPart.isEmpty ∧ fracPart.isEmpty then none
    else some { num := parseNatDigits intPart * 10 ^ fracPart.length + parseNatDigits fracPart,
                den := 10 ^ fracPart.length }
  | _ => if intPart.isEmpty then none else some { num := parseNatDigits intPart, den := 1 }

/-- The per-stream predicate of the max-file-size filter (addon.ts lines
964-984): keep when no size line is found or the unit is unrecognized;
otherwise compare the parsed GB value (or the MB value divided by 1024)
against the cap, with a `NaN` comparison evaluating to false. -/
def sizePass (maxFileSizeGB : JsNumber) (stream : Stream) : Bool :=
  match (jsSplit stream.description '\n').find? (fun line => jsIncludes line "📦") with
  | none => true
  | some sizeLine =>
    let sizePart := jsTrim ((jsSplit sizeLine '📅').getD 0 "")
    if jsIncludes sizePart "GB" then
      match parseFloatDec (matchNumOrZero sizePart) with
      | some v => jsLe v maxFileSizeGB
      | none => false
    else if jsIncludes sizePart "MB" then
      match parseFloatDec (matchNumOrZero sizePart) with
      | some v => jsLe { num := v.num, den := v.den * 1024 } maxFileSizeGB
      | none => false
    else true

/-- The max-file-size step (addon.ts lines 958-997): applied only when the
cap is positive, and kept only if it leaves at least one stream. -/
def sizeStep (maxFileSizeGB : JsNumber) (streams : List Stream) : List Stream :=
  if 0 < maxFileSizeGB.num then
    if 0 < (streams.filter (sizePass maxFileSizeGB)).length then
      streams.filter (sizePass maxFileSizeGB)
    else streams
  else streams

/-- The quality-category classifier of the per-quality limiter (addon.ts
lines 1007-1019). -/
def qualityCategory (s : Stream) : String :=
  let q := qualityOf s
  if jsIncludes q "4K" ∨ jsIncludes q "UHD" ∨ jsIncludes q "2160p" then "4k"
  else if jsIncludes q "1080p" then "1080p"
  else if jsIncludes q "720p" then "720p"
  else if jsIncludes q "480p" ∨ jsIncludes q "SD" then "480p"
  else "other"

/-- The rebuilt stream list of the per-quality limiter (addon.ts lines
1004-1047): group by quality category — categories in first-appearance
order, matching string-keyed object insertion order — and truncate each
group with `slice(0, cap)`. -/
def limitedStreams (maxResultsPerQualityValue : Nat) (streams : List Stream) : List Stream :=
  (insertionDedup (streams.map qualityCategory)).flatMap
    (fun c => (streams.filter (fun s => qualityCategory s = c)).take maxResultsPerQualityValue)

/-- The max-results-per-quality step (addon.ts lines 999-1059): applied only
when the cap is positive, and the rebuilt list is kept only if it is
non-empty. -/
def perQualityStep (maxResultsPerQualityValue : Nat) (streams : List Stream) : List Stream :=
  if 0 < maxResultsPerQualityValue then
    if 0 < (limitedStreams maxResultsPerQualityValue streams).length then
      limitedStreams maxResultsPerQualityValue streams
    else streams
  else streams

/-! Theorems. -/

/-- Claim C10: for every canonical title, custom-title map, metadata
alternative list and partial-match lookup result, the final expanded title
list has the canonical title at index 0 and contains no duplicate strings
(case-sensitive exact comparison). -/
theorem claim_C10_title_set_invariants (metaName : String)
    (customTitles : List (String × List String))
    (metaAlternatives additionalRaw : List String) :
    (buildAllTitles metaName customTitles metaAlternatives additionalRaw).head? = some metaName ∧
    (buildAllTitles metaName customTitles metaAlternatives additionalRaw).Nodup := by
  unfold buildAllTitles
  refine ⟨rfl, ?_⟩
  rw [List.nodup_cons]
  refine ⟨?_, insertionDedup_nodup _⟩
  intro hmem
  rw [mem_insertionDedup] at hmem
  have h2 := (List.mem_filter.mp hmem).2
  simp at h2

/-- Invariant of the pagination loop: if the accumulator respects the result
budget, then so does every successful result of the loop. -/
theorem searchAllLoop_data_le (env : ApiEnv)
    (pf : Nat → Nat → Except SearchError EasynewsSearchResponse) :
    ∀ (fuel pageNr : Nat) (data : List FileData) (res r : EasynewsSearchResponse),
      data.length ≤ env.TOTAL_MAX_RESULTS →
      (searchAllLoop env pf fuel pageNr data res).1 = .ok r →
      r.data.length ≤ env.TOTAL_MAX_RESULTS := by
  intro fuel
  induction fuel with
  | zero =>
    intro pageNr data res r h hr
    unfold searchAllLoop at hr
    simp only [Except.ok.injEq] at hr
    subst hr
    simpa using h
  | succ n ih =>
    intro pageNr data res r h hr
    unfold searchAllLoop at hr
    by_cases h1 : env.TOTAL_MAX_RESULTS ≤ data.length
    · rw [if_pos h1] at hr
      simp only [Except.ok.injEq] at hr
      subst hr
      simpa using h
    · rw [if_neg h1] at hr
      rcases hfetch : pf pageNr (min env.MAX_RESULTS_PER_PAGE (env.TOTAL_MAX_RESULTS - data.length))
        with e | page
      · simp only [hfetch] at hr
        by_cases h2 : 0 < data.length
        · rw [if_pos h2] at hr
          simp only [Except.ok.injEq] at hr
          subst hr
          simpa using h
        · rw [if_neg h2] at hr
          exact absurd hr (by simp)
      · simp only [hfetch] at hr
        by_cases h3 : page.data.length = 0
        · rw [if_pos h3] at hr
          simp only [Except.ok.injEq] at hr
          subst hr
          simpa using h
        · rw [if_neg h3] at hr
          by_cases h4 : 0 < data.length ∧
              page.data.head?.map FileData.hash = data.head?.map FileData.hash
          · rw [if_pos h4] at hr
            simp only [Except.ok.injEq] at hr
            subst hr
            simpa using h
          · rw [if_neg h4] at hr
            by_cases h5 : env.TOTAL_MAX_RESULTS ≤ (data ++ page.data).length
            · rw [if_pos h5] at hr
              simp only [Except.ok.injEq] at hr
              subst hr
              simp [List.length_take]
            · rw [if_neg h5] at hr
              exact ih (pageNr + 1) (data ++ page.data) page r ((Nat.not_le.mp h5).le) hr

/-- Claim C4: for every sequence of upstream pages, a successful aggregation
result of the Pagination Aggregator contains at most `TOTAL_MAX_RESULTS`
records; and whenever a fetched page makes the accumulation reach or exceed
the budget, the accumulated list is trimmed to exactly `TOTAL_MAX_RESULTS`
and pagination stops with no further page request. -/
theorem claim_C4_total_result_budget :
    (∀ (env : ApiEnv) (pf : Nat → Nat → Except SearchError EasynewsSearchResponse)
        (r : EasynewsSearchResponse),
      (searchAll env pf).1 = .ok r → r.data.length ≤ env.TOTAL_MAX_RESULTS) ∧
    (∀ (env : ApiEnv) (pf : Nat → Nat → Except SearchError EasynewsSearchResponse)
        (fuel pageNr : Nat) (data : List FileData) (res page : EasynewsSearchResponse),
      data.length < env.TOTAL_MAX_RESULTS →
      pf pageNr (min env.MAX_RESULTS_PER_PAGE (env.TOTAL_MAX_RESULTS - data.length)) = .ok page →
      page.data.length ≠ 0 →
      ¬ (0 < data.length ∧ page.data.head?.map FileData.hash = data.head?.map FileData.hash) →
      env.TOTAL_MAX_RESULTS ≤ (data ++ page.data).length →
      searchAllLoop env pf (fuel + 1) pageNr data res =
        (.ok { page with data := (data ++ page.data).take env.TOTAL_MAX_RESULTS },
          [(pageNr, min env.MAX_RESULTS_PER_PAGE (env.TOTAL_MAX_RESULTS - data.length),
            data.length)]) ∧
      ((data ++ page.data).take env.TOTAL_MAX_RESULTS).length = env.TOTAL_MAX_RESULTS) := by
  constructor
  · intro env pf r hr
    exact searchAllLoop_data_le env pf env.MAX_PAGES 1 [] _ r (by simp) hr
  · intro env pf fuel pageNr data res page h1 hfetch h3 h4 h5
    constructor
    · unfold searchAllLoop
      rw [if_neg (Nat.not_le.mpr h1)]
      simp only [hfetch]
      rw [if_neg h3, if_neg h4, if_pos h5]
    · simp only [List.length_append] at h5
      simp only [List.length_take, List.length_append]
      omega

/-- A concrete environment with budget 3 and full pages of size 2, for the
claim C4 witness. -/
def envW4 : ApiEnv := { TOTAL_MAX_RESULTS := 3, MAX_PAGES := 10, MAX_RESULTS_PER_PAGE := 2 }

def fullPage (p : Nat) : EasynewsSearchResponse :=
  { data := [{ hash := "p" ++ toString p ++ "a", title := "t" },
             { hash := "p" ++ toString p ++ "b", title := "t" }],
    results := 100, returned := 2, unfilteredResults := 100 }

def pfW4 : Nat → Nat → Except SearchError EasynewsSearchResponse :=
  fun p _ => .ok (fullPage p)

def respW4 : EasynewsSearchResponse :=
  { data := [{ hash := "p1a", title := "t" }, { hash := "p1b", title := "t" },
             { hash := "p2a", title := "t" }],
    results := 100, returned := 2, unfilteredResults := 100 }

/-- Claim C4 witness: a concrete aggregation in which every page is full and
the budget is exceeded mid-page. -/
theorem claim_C4_total_result_budget_witness :
    ((searchAll envW4 pfW4).1 = .ok respW4) ∧ respW4.data.length ≤ envW4.TOTAL_MAX_RESULTS := by
  refine ⟨by decide, ?_⟩
  exact claim_C4_total_result_budget.1 envW4 pfW4 respW4 (by decide)

/-- Every page request recorded by the pagination loop asks for exactly
`min(MAX_RESULTS_PER_PAGE, remaining budget)` given the accumulation size at
that moment, and is only issued while the accumulation is below the budget. -/
theorem searchAllLoop_trace_sizes (env : ApiEnv)
    (pf : Nat → Nat → Except SearchError EasynewsSearchResponse) :
    ∀ (fuel pageNr : Nat) (data : List FileData) (res : EasynewsSearchResponse)
      (p s n : Nat), (p, s, n) ∈ (searchAllLoop env pf fuel pageNr data res).2 →
      s = min env.MAX_RESULTS_PER_PAGE (env.TOTAL_MAX_RESULTS - n) ∧
      n < env.TOTAL_MAX_RESULTS := by
  intro fuel
  induction fuel with
  | zero =>
    intro pageNr data res p s n hmem
    unfold searchAllLoop at hmem
    simp at hmem
  | succ m ih =>
    intro pageNr data res p s n hmem
    have hclose : (p, s, n) = (pageNr, min env.MAX_RESULTS_PER_PAGE
        (env.TOTAL_MAX_RESULTS - data.length), data.length) →
        ¬ env.TOTAL_MAX_RESULTS ≤ data.length →
        s = min env.MAX_RESULTS_PER_PAGE (env.TOTAL_MAX_RESULTS - n) ∧
        n < env.TOTAL_MAX_RESULTS := by
      intro he h1
      simp only [Prod.mk.injEq] at he
      obtain ⟨-, hs, hn⟩ := he
      subst hs
      subst hn
      exact ⟨rfl, Nat.not_le.mp h1⟩
    unfold searchAllLoop at hmem
    by_cases h1 : env.TOTAL_MAX_RESULTS ≤ data.length
    · rw [if_pos h1] at hmem
      simp at hmem
    · rw [if_neg h1] at hmem
      rcases hfetch : pf pageNr (min env.MAX_RESULTS_PER_PAGE
          (env.TOTAL_MAX_RESULTS - data.length)) with e | page
      · simp only [hfetch] at hmem
        by_cases h2 : 0 < data.length
        · rw [if_pos h2] at hmem
          simp only [List.mem_singleton] at hmem
          exact hclose hmem h1
        · rw [if_neg h2] at hmem
          simp only [List.mem_singleton] at hmem
          exact hclose hmem h1
      · simp only [hfetch] at hmem
        by_cases h3 : page.data.length = 0
        · rw [if_pos h3] at hmem
          simp only [List.mem_singleton] at hmem
          exact hclose hmem h1
        · rw [if_neg h3] at hmem
          by_cases h4 : 0 < data.length ∧
              page.data.head?.map FileData.hash = data.head?.map FileData.hash
          · rw [if_pos h4] at hmem
            simp only [List.mem_singleton] at hmem
            exact hclose hmem h1
          · rw [if_neg h4] at hmem
            by_cases h5 : env.TOTAL_MAX_RESULTS ≤ (data ++ page.data).length
            · rw [if_pos h5] at hmem
              simp only [List.mem_singleton] at hmem
              exact hclose hmem h1
            · rw [if_neg h5] at hmem
              simp only [List.mem_cons] at hmem
              rcases hmem with he | hrest
              · exact hclose he h1
              · exact ih (pageNr + 1) (data ++ page.data) page p s n hrest

/-- Environment of end-to-end scenario B: total budget 5, page size 10. -/
def envB : ApiEnv := { TOTAL_MAX_RESULTS := 5, MAX_PAGES := 10, MAX_RESULTS_PER_PAGE := 10 }

def gB (i : Nat) : FileData := { hash := "g" ++ toString i, title := "T" }

def respB1 : EasynewsSearchResponse :=
  { data := [gB 1, gB 2, gB 3, gB 4, gB 5], results := 20, returned := 5, unfilteredResults := 20 }

def respB2 : EasynewsSearchResponse :=
  { data := [gB 6, gB 7], results := 20, returned := 2, unfilteredResults := 20 }

/-- Upstream of scenario B: page 1 returns 5 records, later pages would
return more. -/
def pfB : Nat → Nat → Except SearchError EasynewsSearchResponse :=
  fun p _ => if p = 1 then .ok respB1 else .ok respB2

/-- Claim C5: every page request issued by the Pagination Aggregator asks for
exactly `min(MAX_RESULTS_PER_PAGE, remaining budget)` results, recomputed at
each iteration from the current accumulation, so already the first page
respects the total budget; concretely, with `TOTAL_MAX_RESULTS = 5` and
`MAX_RESULTS_PER_PAGE = 10`, the only request is page 1 with size
`min(10, 5) = 5`, and after it returns 5 records no second page is
requested. -/
theorem claim_C5_page_size_budget :
    (∀ (env : ApiEnv) (pf : Nat → Nat → Except SearchError EasynewsSearchResponse)
        (p s n : Nat), (p, s, n) ∈ (searchAll env pf).2 →
      s = min env.MAX_RESULTS_PER_PAGE (env.TOTAL_MAX_RESULTS - n) ∧
      n < env.TOTAL_MAX_RESULTS) ∧
    (searchAll envB pfB).2 = [(1, 5, 0)] ∧
    (searchAll envB pfB).1 = .ok respB1 := by
  refine ⟨?_, by decide, by decide⟩
  intro env pf p s n hmem
  exact searchAllLoop_trace_sizes env pf env.MAX_PAGES 1 [] _ p s n hmem

/-- Claim C5 witness: the general trace property applied to the single
request of scenario B. -/
theorem claim_C5_page_size_budget_witness :
    (1, 5, 0) ∈ (searchAll envB pfB).2 ∧ 5 = min envB.MAX_RESULTS_PER_PAGE
      (envB.TOTAL_MAX_RESULTS - 0) ∧ 0 < envB.TOTAL_MAX_RESULTS := by
  have h : (1, 5, 0) ∈ (searchAll envB pfB).2 := by decide
  exact ⟨h, (claim_C5_page_size_budget.1 envB pfB 1 5 0 h).1,
    (claim_C5_page_size_budget.1 envB pfB 1 5 0 h).2⟩

/-- Claim C6: during pagination, if the newly fetched page is non-empty and
its first record's content hash equals the first record's hash of the data
accumulated so far (whose head is the first record of the first
previously-fetched non-empty page), the loop stops at once: it returns the
accumulated records unchanged — the new page's records are not included —
and issues no further page request. -/
theorem claim_C6_duplicate_page_guard (env : ApiEnv)
    (pf : Nat → Nat → Except SearchError EasynewsSearchResponse)
    (fuel pageNr : Nat) (data : List FileData) (res page : EasynewsSearchResponse)
    (h1 : data.length < env.TOTAL_MAX_RESULTS)
    (hfetch : pf pageNr (min env.MAX_RESULTS_PER_PAGE
      (env.TOTAL_MAX_RESULTS - data.length)) = .ok page)
    (hne : page.data ≠ [])
    (hdata : data ≠ [])
    (hdup : page.data.head?.map FileData.hash = data.head?.map FileData.hash) :
    searchAllLoop env pf (fuel + 1) pageNr data res =
      (.ok { page with data := data },
        [(pageNr, min env.MAX_RESULTS_PER_PAGE (env.TOTAL_MAX_RESULTS - data.length),
          data.length)]) := by
  unfold searchAllLoop
  rw [if_neg (Nat.not_le.mpr h1)]
  simp only [hfetch]
  rw [if_neg (fun h => hne (List.length_eq_zero.mp h)),
    if_pos ⟨List.length_pos.mpr hdata, hdup⟩]

def fW6 : FileData := { hash := "dup", title := "T" }

def pageW6 : EasynewsSearchResponse :=
  { data := [fW6, { hash := "x2", title := "T" }], results := 9, returned := 2,
    unfilteredResults := 9 }

/-- Claim C6 witness: a concrete repeated page stops aggregation without
contributing records. -/
theorem claim_C6_duplicate_page_guard_witness :
    searchAllLoop envW4 (fun _ _ => .ok pageW6) 5 2 [fW6] pageW6 =
      (.ok { pageW6 with data := [fW6] }, [(2, 2, 1)]) := by
  have h := claim_C6_duplicate_page_guard envW4 (fun _ _ => .ok pageW6) 4 2 [fW6] pageW6 pageW6
    (by decide) (by decide) (by decide) (by decide) (by decide)
  simpa using h

/-- Claim C7: if the Search Client call of an iteration fails, the loop stops
with that page request as its last: when at least one record was already
accumulated the accumulated partial list is returned as a success (under the
last successful envelope), and when nothing was accumulated the failure
propagates. -/
theorem claim_C7_partial_results_on_failure (env : ApiEnv)
    (pf : Nat → Nat → Except SearchError EasynewsSearchResponse)
    (fuel pageNr : Nat) (data : List FileData) (res : EasynewsSearchResponse)
    (e : SearchError)
    (h1 : data.length < env.TOTAL_MAX_RESULTS)
    (hfetch : pf pageNr (min env.MAX_RESULTS_PER_PAGE
      (env.TOTAL_MAX_RESULTS - data.length)) = .error e) :
    searchAllLoop env pf (fuel + 1) pageNr data res =
      ((if 0 < data.length then .ok { res with data := data } else .error e),
        [(pageNr, min env.MAX_RESULTS_PER_PAGE (env.TOTAL_MAX_RESULTS - data.length),
          data.length)]) := by
  unfold searchAllLoop
  rw [if_neg (Nat.not_le.mpr h1)]
  simp only [hfetch]
  by_cases h2 : 0 < data.length
  · rw [if_pos h2, if_pos h2]
  · rw [if_neg h2, if_neg h2]

def fW7 : FileData := { hash := "w7", title := "T" }

def respW7 : EasynewsSearchResponse :=
  { data := [fW7], results := 7, returned := 1, unfilteredResults := 7 }

/-- Claim C7 witness: a failing fetch returns the accumulated record as a
partial success, and propagates the error when nothing was accumulated. -/
theorem claim_C7_partial_results_on_failure_witness :
    (searchAllLoop envW4 (fun _ _ => .error .timedOut) 5 2 [fW7] respW7 =
      (.ok { respW7 with data := [fW7] }, [(2, 2, 1)])) ∧
    (searchAllLoop envW4 (fun _ _ => .error .timedOut) 5 1 [] respW7 =
      (.error .timedOut, [(1, 2, 0)])) := by
  constructor
  · have h := claim_C7_partial_results_on_failure envW4 (fun _ _ => .error .timedOut) 4 2 [fW7]
      respW7 .timedOut (by decide) (by decide)
    simpa using h
  · have h := claim_C7_partial_results_on_failure envW4 (fun _ _ => .error .timedOut) 4 1 []
      respW7 .timedOut (by decide) (by decide)
    simpa using h

/-! The multi-query orchestrator (claims C1 and C8). -/

def fC1a : FileData := { hash := "h1", title := "Movie.2020.1080p.mkv" }

def fC1b : FileData := { hash := "h2", title := "Movie.2020.720p.mkv" }

/-- A two-page upstream: page 1 holds one record, page 2 another, page 3 is
empty. -/
def upC1 : SearchRequest → UpstreamReply := fun r =>
  if r.pno = 1 then
    .reply 200 { data := [fC1a], results := 2, returned := 1, unfilteredResults := 2 }
  else if r.pno = 2 then
    .reply 200 { data := [fC1b], results := 2, returned := 1, unfilteredResults := 2 }
  else .reply 200 { data := [], results := 2, returned := 0, unfilteredResults := 2 }

/-- The fixed sort options the stream handler passes to every `api.search`
call (addon.ts lines 292-303), with the per-title query substituted. -/
def sortOpts (q : String) : SearchOptions :=
  { query := q, sort1 := some "relevance", sort1Direction := some "-",
    sort2 := some "dsize", sort2Direction := some "-",
    sort3 := some "dtime", sort3Direction := some "-" }

def envC1 : ApiEnv := { TOTAL_MAX_RESULTS := 500, MAX_PAGES := 10, MAX_RESULTS_PER_PAGE := 1 }

/-- What `searchAll` would call for each page of the query of `upC1`. -/
def pfC1 : Nat → Nat → Except SearchError EasynewsSearchResponse := fun p s =>
  searchOutcome 1 upC1 { sortOpts "Movie" with pageNr := some p, maxResults := some s }

/-- Claim C1 counterexample: the orchestrator's per-title loop calls the
single-page `search` (here with all page budgets far from exhausted), so it
accumulates only the first page for the title, while the Pagination
Aggregator (`searchAll`) on the same query and the same upstream returns the
records of both pages.  The accumulated per-title result therefore does not
equal the multi-page aggregated response even though no page-count,
page-size or total-result budget was hit. -/
theorem claim_C1_counterexample :
    collectLoop 500 (fun q => searchOutcome 1 upC1 (sortOpts q)) (fun t => t) ["Movie"] [] =
      (.done [("Movie", { data := [fC1a], results := 2, returned := 1, unfilteredResults := 2 })],
        ["Movie"]) ∧
    (searchAll envC1 pfC1).1 =
      .ok { data := [fC1a, fC1b], results := 2, returned := 0, unfilteredResults := 2 } ∧
    ([fC1a] : List FileData) ≠ [fC1a, fC1b] := by
  refine ⟨by decide, by decide, by decide⟩

/-- Claim C1 (amended): for each processed non-empty title with the
unique-result budget not yet met, the orchestrator issues exactly one
single-page Search Client call and accumulates exactly that call's response
(not a multi-page `searchAll` aggregate), then continues with the remaining
titles. -/
theorem claim_C1_single_page_per_title (totalMax : Nat)
    (searchFn : String → Except SearchError EasynewsSearchResponse)
    (buildQuery : String → String) (t : String) (rest : List String)
    (acc : List (String × EasynewsSearchResponse)) (res : EasynewsSearchResponse)
    (htrim : jsTrim t ≠ "")
    (hcount : countTotalUniqueResults acc < totalMax)
    (hsearch : searchFn (buildQuery t) = .ok res)
    (hlen : 0 < res.data.length) :
    collectLoop totalMax searchFn buildQuery (t :: rest) acc =
      ((collectLoop totalMax searchFn buildQuery rest (acc ++ [(buildQuery t, res)])).1,
        buildQuery t ::
          (collectLoop totalMax searchFn buildQuery rest (acc ++ [(buildQuery t, res)])).2) := by
  conv_lhs => rw [collectLoop]
  rw [if_neg htrim, if_neg (Nat.not_le.mpr hcount)]
  simp only [hsearch]
  rw [if_pos hlen]

/-- Claim C1 witness: the amended step applied to the concrete scenario of
the counterexample. -/
theorem claim_C1_single_page_per_title_witness :
    collectLoop 500 (fun q => searchOutcome 1 upC1 (sortOpts q)) (fun t => t) ["Movie"] [] =
      ((collectLoop 500 (fun q => searchOutcome 1 upC1 (sortOpts q)) (fun t => t) []
          [("Movie", { data := [fC1a], results := 2, returned := 1, unfilteredResults := 2 })]).1,
        "Movie" ::
          (collectLoop 500 (fun q => searchOutcome 1 upC1 (sortOpts q)) (fun t => t) []
            [("Movie",
              { data := [fC1a], results := 2, returned := 1, unfilteredResults := 2 })]).2) := by
  exact claim_C1_single_page_per_title 500 (fun q => searchOutcome 1 upC1 (sortOpts q))
    (fun t => t) "Movie" [] []
    { data := [fC1a], results := 2, returned := 1, unfilteredResults := 2 }
    (by decide) (by decide) (by decide) (by decide)

/-- Claim C8: an upstream HTTP 401 turns into the dedicated authentication
error of the Search Client; when any title's search fails with an error the
`isAuthError` predicate recognizes, the whole per-title loop stops at once
with the authentication-specific result and no further title is searched;
every other failure is swallowed and the loop continues with the remaining
titles; and the authentication result is distinguishable from every ordinary
result, in particular from an empty result set. -/
theorem claim_C8_auth_abort :
    (∀ (envMPP : Nat) (upstream : SearchRequest → UpstreamReply) (o : SearchOptions)
        (body : EasynewsSearchResponse),
      o.query ≠ "" → upstream (toRequest envMPP o) = .reply 401 body →
      searchOutcome envMPP upstream o = .error .authFailed ∧ isAuthError .authFailed = true) ∧
    (∀ (totalMax : Nat) (searchFn : String → Except SearchError EasynewsSearchResponse)
        (buildQuery : String → String) (t : String) (rest : List String)
        (acc : List (String × EasynewsSearchResponse)) (e : SearchError),
      jsTrim t ≠ "" → countTotalUniqueResults acc < totalMax →
      searchFn (buildQuery t) = .error e → isAuthError e = true →
      collectLoop totalMax searchFn buildQuery (t :: rest) acc = (.authAbort, [buildQuery t])) ∧
    (∀ (totalMax : Nat) (searchFn : String → Except SearchError EasynewsSearchResponse)
        (buildQuery : String → String) (t : String) (rest : List String)
        (acc : List (String × EasynewsSearchResponse)) (e : SearchError),
      jsTrim t ≠ "" → countTotalUniqueResults acc < totalMax →
      searchFn (buildQuery t) = .error e → isAuthError e = false →
      collectLoop totalMax searchFn buildQuery (t :: rest) acc =
        ((collectLoop totalMax searchFn buildQuery rest acc).1,
          buildQuery t :: (collectLoop totalMax searchFn buildQuery rest acc).2)) ∧
    (∀ acc : List (String × EasynewsSearchResponse), StreamHandlerResult.authAbort ≠ .done acc) := by
  refine ⟨?_, ?_, ?_, ?_⟩
  · intro envMPP upstream o body hq hup
    refine ⟨?_, rfl⟩
    unfold searchOutcome
    rw [if_neg hq]
    simp [hup]
  · intro totalMax searchFn buildQuery t rest acc e htrim hcount hsearch hauth
    conv_lhs => rw [collectLoop]
    rw [if_neg htrim, if_neg (Nat.not_le.mpr hcount)]
    simp only [hsearch, hauth, if_true]
  · intro totalMax searchFn buildQuery t rest acc e htrim hcount hsearch hauth
    conv_lhs => rw [collectLoop]
    rw [if_neg htrim, if_neg (Nat.not_le.mpr hcount)]
    simp only [hsearch, hauth, Bool.false_eq_true, if_false]
  · intro acc h
    cases h

/-- An upstream that rejects every request with HTTP 401. -/
def up401 : SearchRequest → UpstreamReply := fun _ =>
  .reply 401 { data := [], results := 0, returned := 0, unfilteredResults := 0 }

/-- Claim C8 witness: a 401 on the first of two titles aborts the loop with
the authentication result, before the second title is searched. -/
theorem claim_C8_auth_abort_witness :
    searchOutcome 250 up401 (sortOpts "Alpha") = .error .authFailed ∧
    collectLoop 500 (fun q => searchOutcome 250 up401 (sortOpts q)) (fun t => t)
      ["Alpha", "Beta"] [] = (.authAbort, ["Alpha"]) := by
  refine ⟨(claim_C8_auth_abort.1 250 up401 (sortOpts "Alpha")
    { data := [], results := 0, returned := 0, unfilteredResults := 0 } (by decide) (by decide)).1,
    ?_⟩
  exact claim_C8_auth_abort.2.1 500 (fun q => searchOutcome 250 up401 (sortOpts q))
    (fun t => t) "Alpha" ["Beta"] [] .authFailed (by decide) (by decide) (by decide) (by decide)

/-! The result filter (claim C2). -/

/-- Invariant of the filter state: accepted records have pairwise distinct
hashes, and every accepted hash is in the shared hash set. -/
def FilterInvariant (st : FilterState) : Prop :=
  (st.streams.map FileData.hash).Nodup ∧
  ∀ x ∈ st.streams.map FileData.hash, x ∈ st.processedHashes

theorem processFile_invariant (cfg : StreamFilterConfig) (st : FilterState) (f : FileData)
    (h : FilterInvariant st) : FilterInvariant (processFile cfg st f) := by
  unfold processFile
  by_cases h1 : cfg.totalMax ≤ st.streams.length
  · rwa [if_pos h1]
  · rw [if_neg h1]
    by_cases h2 : cfg.isBadVideo f = true
    · rwa [if_pos h2]
    · rw [if_neg h2]
      by_cases h3 : f.hash ∈ st.processedHashes
      · rwa [if_pos h3]
      · rw [if_neg h3]
        by_cases h4 : cfg.matchesQueries f = true
        · rw [if_pos h4]
          refine ⟨?_, ?_⟩
          · simp only [List.map_append, List.map_cons, List.map_nil]
            rw [List.nodup_append]
            refine ⟨h.1, List.nodup_singleton _, ?_⟩
            intro x hx hy
            simp only [List.mem_singleton] at hy
            subst hy
            exact h3 (h.2 _ hx)
          · intro x hx
            simp only [List.map_append, List.map_cons, List.map_nil, List.mem_append,
              List.mem_singleton] at hx
            rcases hx with hx | hx
            · exact List.mem_append.mpr (Or.inl (h.2 x hx))
            · subst hx
              exact List.mem_append.mpr (Or.inr (List.mem_singleton.mpr rfl))
        · rw [if_neg h4]
          refine ⟨h.1, ?_⟩
          intro x hx
          exact List.mem_append.mpr (Or.inl (h.2 x hx))

theorem foldl_processFile_invariant (cfg : StreamFilterConfig) :
    ∀ (files : List FileData) (st : FilterState),
      FilterInvariant st → FilterInvariant (files.foldl (processFile cfg) st) := by
  intro files
  induction files with
  | nil => intro st h; simpa using h
  | cons f rest ih =>
    intro st h
    simpa [List.foldl] using ih (processFile cfg st f) (processFile_invariant cfg st f h)

theorem foldl_responses_invariant (cfg : StreamFilterConfig) :
    ∀ (rs : List EasynewsSearchResponse) (st : FilterState),
      FilterInvariant st →
      FilterInvariant (rs.foldl (fun st res => res.data.foldl (processFile cfg) st) st) := by
  intro rs
  induction rs with
  | nil => intro st h; simpa using h
  | cons r rest ih =>
    intro st h
    simpa [List.foldl] using ih _ (foldl_processFile_invariant cfg r.data st h)

theorem processSearchResults_invariant (cfg : StreamFilterConfig)
    (responses : List EasynewsSearchResponse) :
    FilterInvariant (processSearchResults cfg responses) := by
  unfold processSearchResults
  refine foldl_responses_invariant cfg responses _ ⟨by simp, ?_⟩
  intro x hx
  simp at hx

/-- Claim C2 (amended): a record is rejected as a duplicate exactly when its
content hash is already in the shared hash set, which records every record
that passed the bad-video and duplicate checks — whether or not it then
passed the title-match checks (so a hash can block later records without any
record of that hash having been accepted); every record failing the playable
video predicate is rejected without touching the state; and consequently the
accepted records always carry pairwise distinct hashes. -/
theorem claim_C2_dedup_semantics :
    (∀ (cfg : StreamFilterConfig) (st : FilterState) (f : FileData),
      st.streams.length < cfg.totalMax → cfg.isBadVideo f = true →
      processFile cfg st f = st) ∧
    (∀ (cfg : StreamFilterConfig) (st : FilterState) (f : FileData),
      st.streams.length < cfg.totalMax → cfg.isBadVideo f = false →
      f.hash ∈ st.processedHashes → processFile cfg st f = st) ∧
    (∀ (cfg : StreamFilterConfig) (st : FilterState) (f : FileData),
      st.streams.length < cfg.totalMax → cfg.isBadVideo f = false →
      f.hash ∉ st.processedHashes →
      (processFile cfg st f).processedHashes = st.processedHashes ++ [f.hash] ∧
      (processFile cfg st f).streams =
        (if cfg.matchesQueries f then st.streams ++ [f] else st.streams)) ∧
    (∀ (cfg : StreamFilterConfig) (responses : List EasynewsSearchResponse),
      ((processSearchResults cfg responses).streams.map FileData.hash).Nodup) := by
  refine ⟨?_, ?_, ?_, ?_⟩
  · intro cfg st f h1 h2
    unfold processFile
    rw [if_neg (Nat.not_le.mpr h1), if_pos h2]
  · intro cfg st f h1 h2 h3
    unfold processFile
    rw [if_neg (Nat.not_le.mpr h1), if_neg (by simp [h2]), if_pos h3]
  · intro cfg st f h1 h2 h3
    unfold processFile
    rw [if_neg (Nat.not_le.mpr h1), if_neg (by simp [h2]), if_neg h3]
    by_cases h4 : cfg.matchesQueries f = true
    · rw [if_pos h4, if_pos h4]
      exact ⟨rfl, rfl⟩
    · rw [if_neg h4, if_neg h4]
      exact ⟨rfl, rfl⟩
  · intro cfg responses
    exact (processSearchResults_invariant cfg responses).1

def cfgC2 : StreamFilterConfig :=
  { totalMax := 500, isBadVideo := fun _ => false,
    matchesQueries := fun f => f.title = "GOOD" }

def recC2a : FileData := { hash := "h1", title := "BAD" }

def recC2b : FileData := { hash := "h1", title := "GOOD" }

/-- Claim C2 counterexample: the first record passes the bad-video and
duplicate checks, gets its hash recorded, and is then rejected by title
matching — so nothing is ever accepted.  The second record is playable,
matches, and no record with its hash was ever accepted, yet it is rejected
as a duplicate: the final accepted list is empty, refuting the claim that a
record is rejected as a duplicate only when its hash equals the hash of a
previously accepted record. -/
theorem claim_C2_counterexample :
    processSearchResults cfgC2
        [{ data := [recC2a, recC2b], results := 2, returned := 2, unfilteredResults := 2 }] =
      { processedHashes := ["h1"], streams := [] } ∧
    cfgC2.isBadVideo recC2b = false ∧
    cfgC2.matchesQueries recC2b = true ∧
    processFile cfgC2 { processedHashes := ["h1"], streams := [] } recC2b =
      { processedHashes := ["h1"], streams := [] } := by
  refine ⟨by decide, by decide, by decide, by decide⟩

def respC2w : EasynewsSearchResponse :=
  { data := [recC2a, recC2b], results := 2, returned := 2, unfilteredResults := 2 }

/-- Claim C2 witness: the amended step equations applied at concrete states,
together with the distinct-hash invariant on a concrete run. -/
theorem claim_C2_dedup_semantics_witness :
    (processFile cfgC2 { processedHashes := ["h1"], streams := [] } recC2b =
      { processedHashes := ["h1"], streams := [] }) ∧
    (processFile cfgC2 { processedHashes := [], streams := [] } recC2a =
      { processedHashes := ["h1"], streams := [] }) ∧
    ((processSearchResults cfgC2 [respC2w]).streams.map FileData.hash).Nodup := by
  refine ⟨?_, by decide, claim_C2_dedup_semantics.2.2.2 cfgC2 [respC2w]⟩
  exact claim_C2_dedup_semantics.2.1 cfgC2 { processedHashes := ["h1"], streams := [] } recC2b
    (by decide) (by decide) (by decide)

/-! The Search Client cache (claim C3). -/

/-- Claim C3 counterexample: two search calls that differ in their effective
requested page size (5 versus 250 entries per page) nevertheless produce the
same cache key, because `getCacheKey` fills the `maxResults` component from
the environment default instead of the caller's options — refuting the claim
that calls differing in the requested page size produce different keys. -/
theorem claim_C3_counterexample :
    getCacheKey 250 { query := "test", maxResults := some 5 } =
      getCacheKey 250 { query := "test", maxResults := some 250 } ∧
    (toRequest 250 { query := "test", maxResults := some 5 }).pby ≠
      (toRequest 250 { query := "test", maxResults := some 250 }).pby := by
  refine ⟨by decide, by decide⟩

/-- Claim C3 (amended): the cache key is the canonical serialization of
query, page number, the environment's `MAX_RESULTS_PER_PAGE` (not the
requested page size) and the three sort pairs, with `||`-defaults
substituted first: two keys are equal exactly when those effective
components agree — so calls differing only in requested page size share a
key — and after a successful fetched call any later call with the same key
inside the TTL is served from the cache with zero network calls and an
unchanged cache. -/
theorem claim_C3_cache_key_semantics :
    (∀ (env : Nat) (o1 o2 : SearchOptions),
      getCacheKey env o1 = getCacheKey env o2 ↔
        (o1.query = o2.query ∧ jsOrNat o1.pageNr 1 = jsOrNat o2.pageNr 1 ∧
          jsOrStr o1.sort1 "dsize" = jsOrStr o2.sort1 "dsize" ∧
          jsOrStr o1.sort1Direction "-" = jsOrStr o2.sort1Direction "-" ∧
          jsOrStr o1.sort2 "relevance" = jsOrStr o2.sort2 "relevance" ∧
          jsOrStr o1.sort2Direction "-" = jsOrStr o2.sort2Direction "-" ∧
          jsOrStr o1.sort3 "dtime" = jsOrStr o2.sort3 "dtime" ∧
          jsOrStr o1.sort3Direction "-" = jsOrStr o2.sort3Direction "-")) ∧
    (∀ (env ttl : Nat) (upstream : SearchRequest → UpstreamReply) (now1 now2 : Nat)
        (cache : Cache) (o o2 : SearchOptions) (r : EasynewsSearchResponse),
      o.query ≠ "" → o2.query ≠ "" →
      getCacheKey env o2 = getCacheKey env o →
      cache (getCacheKey env o) = none →
      (search env ttl upstream now1 cache o).1 = .ok r →
      now2 - now1 ≤ ttl →
      search env ttl upstream now2 (search env ttl upstream now1 cache o).2.1 o2 =
        (.ok r, (search env ttl upstream now1 cache o).2.1, 0)) := by
  constructor
  · intro env o1 o2
    unfold getCacheKey
    constructor
    · intro h
      injection h with h1 h2 h3 h4 h5 h6 h7 h8 h9
      exact ⟨h1, h2, h4, h5, h6, h7, h8, h9⟩
    · rintro ⟨h1, h2, h4, h5, h6, h7, h8, h9⟩
      rw [h1, h2, h4, h5, h6, h7, h8, h9]
  · intro env ttl upstream now1 now2 cache o o2 r hq hq2 hkey hnone hok hle
    rcases hout : searchOutcome env upstream o with e | json
    · exfalso
      unfold search at hok
      rw [if_neg hq] at hok
      unfold getFromCache at hok
      simp only [hnone, hout] at hok
      exact Except.noConfusion hok
    · have hr : json = r := by
        unfold search at hok
        rw [if_neg hq] at hok
        unfold getFromCache at hok
        simp only [hnone, hout, Except.ok.injEq] at hok
        exact hok
      subst hr
      have hc2 : (search env ttl upstream now1 cache o).2.1 =
          setCache cache (getCacheKey env o) json now1 := by
        unfold search
        rw [if_neg hq]
        unfold getFromCache
        simp only [hnone, hout]
      rw [hc2]
      have hlook : setCache cache (getCacheKey env o) json now1 (getCacheKey env o2) =
          some (json, now1) := by
        unfold setCache
        rw [if_pos hkey]
      unfold search
      rw [if_neg hq2]
      unfold getFromCache
      simp only [hlook]
      rw [if_neg (by omega : ¬ now2 - now1 > ttl)]

/-- The environment/upstream of the claim C3 witness. -/
def respC3 : EasynewsSearchResponse :=
  { data := [{ hash := "c3", title := "T" }], results := 1, returned := 1,
    unfilteredResults := 1 }

def upC3 : SearchRequest → UpstreamReply := fun _ => .reply 200 respC3

/-- Claim C3 witness: a first call on an empty cache succeeds over the
network, and a second call whose options differ only in the requested page
size is served from the cache with zero network calls. -/
theorem claim_C3_cache_key_semantics_witness :
    (getCacheKey 250 { query := "test", maxResults := some 5 } =
        getCacheKey 250 { query := "test" } ↔
      (True ∧ True ∧ True ∧ True ∧ True ∧ True ∧ True ∧ True)) ∧
    search 250 100 upC3 50 (search 250 100 upC3 0 emptyCache { query := "test" }).2.1
        { query := "test", maxResults := some 5 } =
      (.ok respC3, (search 250 100 upC3 0 emptyCache { query := "test" }).2.1, 0) := by
  constructor
  · have h := claim_C3_cache_key_semantics.1 250 { query := "test", maxResults := some 5 }
      { query := "test" }
    simpa using h
  · exact claim_C3_cache_key_semantics.2 250 100 upC3 0 50 emptyCache { query := "test" }
      { query := "test", maxResults := some 5 } respC3 (by decide) (by decide) (by decide) rfl
      (by decide) (by decide)

/-! The post-filter steps (claim C9). -/

theorem flatMap_filter {γ δ : Type} (l : List γ) (f : γ → List δ) (p : δ → Bool) :
    (l.flatMap f).filter p = l.flatMap (fun a => (f a).filter p) := by
  induction l with
  | nil => simp
  | cons a t ih => simp [List.filter_append, ih]

theorem flatMap_congr {γ δ : Type} :
    ∀ (l : List γ) (f g : γ → List δ), (∀ a ∈ l, f a = g a) → l.flatMap f = l.flatMap g := by
  intro l
  induction l with
  | nil => intro f g h; simp
  | cons a t ih =>
    intro f g h
    simp only [List.flatMap_cons]
    rw [h a (List.mem_cons_self a t), ih f g (fun x hx => h x (List.mem_cons_of_mem a hx))]

theorem flatMap_if_single {γ δ : Type} [DecidableEq γ] :
    ∀ (cats : List γ) (c : γ) (g : List δ), cats.Nodup →
      cats.flatMap (fun x => if x = c then g else []) = if c ∈ cats then g else [] := by
  intro cats
  induction cats with
  | nil => intro c g h; simp
  | cons a t ih =>
    intro c g h
    rw [List.nodup_cons] at h
    simp only [List.flatMap_cons, ih c g h.2]
    by_cases hac : a = c
    · subst hac
      rw [if_pos rfl, if_neg h.1, if_pos (List.mem_cons_self a t)]
      simp
    · rw [if_neg hac]
      by_cases hct : c ∈ t
      · rw [if_pos hct, if_pos (List.mem_cons_of_mem a hct)]
        simp
      · rw [if_neg hct, if_neg (by simp [hct, Ne.symm hac])]
        simp

/-- Every record of one truncated quality group carries that group's
category. -/
theorem mem_take_filter_cat (streams : List Stream) (c : String) (k : Nat) :
    ∀ x ∈ (streams.filter (fun s => qualityCategory s = c)).take k,
      qualityCategory x = c := by
  intro x hx
  have hx2 := List.take_subset k _ hx
  exact of_decide_eq_true (List.mem_filter.mp hx2).2

/-- With a positive cap and a non-empty input, the rebuilt per-quality list
is non-empty and is what the step returns. -/
theorem perQualityStep_eq_limited (k : Nat) (streams : List Stream)
    (hk : 0 < k) (hne : streams ≠ []) :
    limitedStreams k streams ≠ [] ∧ perQualityStep k streams = limitedStreams k streams := by
  obtain ⟨s, rest, rfl⟩ := List.exists_cons_of_ne_nil hne
  have hcat : qualityCategory s ∈ insertionDedup ((s :: rest).map qualityCategory) := by
    rw [mem_insertionDedup]
    exact List.mem_map_of_mem qualityCategory (List.mem_cons_self s rest)
  have hfil : s ∈ (s :: rest).filter (fun x => qualityCategory x = qualityCategory s) := by
    rw [List.mem_filter]
    exact ⟨List.mem_cons_self s rest, by simp⟩
  have hpiece : ((s :: rest).filter
      (fun x => qualityCategory x = qualityCategory s)).take k ≠ [] := by
    intro h
    rcases List.take_eq_nil_iff.mp h with h0 | h0
    · omega
    · rw [h0] at hfil
      simp at hfil
  obtain ⟨y, ytl, hy⟩ := List.exists_cons_of_ne_nil hpiece
  have hylim : y ∈ limitedStreams k (s :: rest) := by
    unfold limitedStreams
    rw [List.mem_flatMap]
    exact ⟨qualityCategory s, hcat, by rw [hy]; exact List.mem_cons_self y ytl⟩
  have hlim : limitedStreams k (s :: rest) ≠ [] := List.ne_nil_of_mem hylim
  refine ⟨hlim, ?_⟩
  unfold perQualityStep
  rw [if_pos hk, if_pos (List.length_pos.mpr hlim)]

/-- Filtering the rebuilt per-quality list down to one category yields
exactly that category's truncated group. -/
theorem perQualityStep_filter_cat (k : Nat) (streams : List Stream) (c : String)
    (hk : 0 < k) :
    (perQualityStep k streams).filter (fun s => qualityCategory s = c) =
      (streams.filter (fun s => qualityCategory s = c)).take k := by
  by_cases hne : streams = []
  · subst hne
    simp [perQualityStep, limitedStreams, insertionDedup]
  · rw [(perQualityStep_eq_limited k streams hk hne).2]
    unfold limitedStreams
    rw [flatMap_filter]
    have hcong : (insertionDedup (streams.map qualityCategory)).flatMap
        (fun a => ((streams.filter (fun s => qualityCategory s = a)).take k).filter
          (fun s => qualityCategory s = c)) =
      (insertionDedup (streams.map qualityCategory)).flatMap
        (fun a => if a = c then (streams.filter (fun s => qualityCategory s = c)).take k
          else []) := by
      apply flatMap_congr
      intro a ha
      by_cases hac : a = c
      · subst hac
        rw [if_pos rfl]
        apply List.filter_eq_self.mpr
        intro x hx
        exact decide_eq_true (mem_take_filter_cat streams a k x hx)
      · rw [if_neg hac]
        apply List.filter_eq_nil_iff.mpr
        intro x hx hpx
        have h1 := mem_take_filter_cat streams a k x hx
        have h2 : qualityCategory x = c := of_decide_eq_true hpx
        exact hac (h1 ▸ h2)
    rw [hcong, flatMap_if_single _ c _ (insertionDedup_nodup _)]
    by_cases hc : c ∈ insertionDedup (streams.map qualityCategory)
    · rw [if_pos hc]
    · rw [if_neg hc]
      rw [mem_insertionDedup] at hc
      have hfe : streams.filter (fun s => qualityCategory s = c) = [] := by
        rw [List.filter_eq_nil_iff]
        intro a ha hpa
        apply hc
        have h3 : qualityCategory a = c := of_decide_eq_true hpa
        rw [← h3]
        exact List.mem_map_of_mem qualityCategory ha
      rw [hfe, List.take_nil]

def sC9a : Stream := { name := "Easynews++\n1080p", description := "d" }

def sC9b : Stream := { name := "Easynews++\nCAM", description := "d" }

/-- Claim C9 counterexample: with the default quality set configured, the
quality allow-list step is skipped entirely, so a stream whose quality marker
matches no allowed term survives even though applying the allow-list would
keep a non-zero number of candidates — refuting the claim that whenever
applying a step leaves at least one candidate, only the passing candidates
are kept. -/
theorem claim_C9_counterexample :
    qualityStep defaultQualitySet [sC9a, sC9b] = [sC9a, sC9b] ∧
    List.filter (qualityPass defaultQualitySet) [sC9a, sC9b] = [sC9a] ∧
    ([sC9a] : List Stream) ≠ [] ∧
    qualityPass defaultQualitySet sC9b = false := by
  refine ⟨by decide, by decide, by decide, by decide⟩

/-- Claim C9 (amended): the max-size step and the quality allow-list step
each return their input unchanged when applying them would leave zero
candidates and otherwise keep exactly the passing candidates — but the
allow-list step only runs for a custom quality set (for the default set it
always returns its input unchanged, even when some candidate fails it); the
per-quality step never leaves zero candidates: for a positive cap it groups
by quality category and keeps, for each category, exactly the first `cap`
candidates of that category, returning a non-empty list whenever its input
is non-empty. -/
theorem claim_C9_soft_post_filters :
    (∀ (qualityFilters : List String) (streams : List Stream),
      isCustomQualityFilter qualityFilters = false →
      qualityStep qualityFilters streams = streams) ∧
    (∀ (qualityFilters : List String) (streams : List Stream),
      isCustomQualityFilter qualityFilters = true →
      (streams.filter (qualityPass qualityFilters) = [] →
        qualityStep qualityFilters streams = streams) ∧
      (streams.filter (qualityPass qualityFilters) ≠ [] →
        qualityStep qualityFilters streams = streams.filter (qualityPass qualityFilters))) ∧
    (∀ (maxFileSizeGB : JsNumber) (streams : List Stream), 0 < maxFileSizeGB.num →
      (streams.filter (sizePass maxFileSizeGB) = [] → sizeStep maxFileSizeGB streams = streams) ∧
      (streams.filter (sizePass maxFileSizeGB) ≠ [] →
        sizeStep maxFileSizeGB streams = streams.filter (sizePass maxFileSizeGB))) ∧
    (∀ (k : Nat) (streams : List Stream) (c : String), 0 < k →
      (perQualityStep k streams).filter (fun s => qualityCategory s = c) =
        (streams.filter (fun s => qualityCategory s = c)).take k) ∧
    (∀ (k : Nat) (streams : List Stream), 0 < k → streams ≠ [] →
      perQualityStep k streams ≠ []) := by
  refine ⟨?_, ?_, ?_, ?_, ?_⟩
  · intro qualityFilters streams h
    unfold qualityStep
    rw [if_neg (by simp [h])]
  · intro qualityFilters streams h
    constructor
    · intro hfil
      unfold qualityStep
      rw [if_pos h]
      by_cases hterms : 0 < (allowedQualityTerms qualityFilters).length
      · rw [if_pos hterms, if_neg (by simp [hfil])]
      · rw [if_neg hterms]
    · intro hfil
      unfold qualityStep
      rw [if_pos h]
      have hlen : 0 < (streams.filter (qualityPass qualityFilters)).length :=
        List.length_pos.mpr hfil
      have hterms : 0 < (allowedQualityTerms qualityFilters).length := by
        by_contra hterms
        have h0 : allowedQualityTerms qualityFilters = [] := by
          cases he : allowedQualityTerms qualityFilters with
          | nil => rfl
          | cons a t => rw [he] at hterms; simp at hterms
        apply hfil
        apply List.filter_eq_nil_iff.mpr
        intro a ha hpa
        unfold qualityPass at hpa
        rw [h0] at hpa
        simp at hpa
      rw [if_pos hterms, if_pos hlen]
  · intro maxFileSizeGB streams h
    constructor
    · intro hfil
      unfold sizeStep
      rw [if_pos h, if_neg (by simp [hfil])]
    · intro hfil
      unfold sizeStep
      rw [if_pos h, if_pos (List.length_pos.mpr hfil)]
  · intro k streams c hk
    exact perQualityStep_filter_cat k streams c hk
  · intro k streams hk hne
    have h := perQualityStep_eq_limited k streams hk hne
    rw [h.2]
    exact h.1

def sC9c : Stream := { name := "Easynews++\n1080p", description := "x\n📦 3.2 GB\ny" }

def sC9d : Stream := { name := "Easynews++\n1080p", description := "x\n📦 1.1 GB\ny" }

def sC9e : Stream := { name := "Easynews++\n720p", description := "d" }

/-- Claim C9 witness: the amended step behaviors applied to concrete
candidate lists — a custom allow-list keeps exactly the passing stream, the
size cap keeps exactly the small-enough stream, and the per-quality limiter
truncates the 1080p group to one entry while never emptying the list. -/
theorem claim_C9_soft_post_filters_witness :
    qualityStep ["720p"] [sC9a, sC9e] = List.filter (qualityPass ["720p"]) [sC9a, sC9e] ∧
    sizeStep { num := 2, den := 1 } [sC9c, sC9d] =
      List.filter (sizePass { num := 2, den := 1 }) [sC9c, sC9d] ∧
    (perQualityStep 1 [sC9c, sC9d, sC9e]).filter
        (fun s => qualityCategory s = "1080p") =
      (List.filter (fun s => qualityCategory s = "1080p") [sC9c, sC9d, sC9e]).take 1 ∧
    perQualityStep 1 [sC9c, sC9d, sC9e] ≠ [] := by
  refine ⟨?_, ?_, ?_, ?_⟩
  · exact (claim_C9_soft_post_filters.2.1 ["720p"] [sC9a, sC9e] (by decide)).2 (by decide)
  · exact (claim_C9_soft_post_filters.2.2.1 { num := 2, den := 1 } [sC9c, sC9d]
      (by decide)).2 (by decide)
  · exact claim_C9_soft_post_filters.2.2.2.1 1 [sC9c, sC9d, sC9e] "1080p" (by decide)
  · exact claim_C9_soft_post_filters.2.2.2.2 1 [sC9c, sC9d, sC9e] (by decide) (by decide)

end Easynews
